import Mathlib

/-!
# Verification of the pycharts-timescaledb reconciliation and upsert engine

Shallow embedding of `pycharts_timescaledb/api_extention.py`
(class `TimescaleDB_EXT`): the schema-reconciliation phases
(`_add_timeseries_asset_classes`, `_update_timeseries_asset_classes`,
`_del_timeseries_asset_classes`), the bulk security upsert
(`upsert_securities`), and the metadata-gap resolver
(`get_symbol_series_updates` / `_missing_metadata_tables`).

Collaborator modules (`orm.TimeseriesConfig`, `sql_cmds`, `api.TimeScaleDB`)
are not part of the repository's visible sources; where the engine relies on
their behaviour, the corresponding definitions here are modelled from the
specification and marked as such in their doc comments.

Database side effects are made explicit: every `cursor.execute` performed by a
reconciliation phase is recorded as a `Stmt` value in the order the Python code
issues it, and every confirmation prompt (`input(...)`) is supplied as an
explicit answer argument.
-/

namespace PyCharts

/-- A timeseries table specification.  Modelled from the spec: "A table
specification has: aggregation period (zero duration denotes
tick-level/unaggregated), a derived table name, a `raw` flag".  Periods are
durations; we represent them as natural numbers (e.g. seconds). -/
structure AssetTable where
  name : String
  period : Nat
  raw : Bool
deriving DecidableEq, Repr

/-- A declarative timeseries configuration.  Modelled from the spec:
"**DesiredConfig**: set of asset-class names; per asset class, a list of table
specifications (raw and aggregate) and three origin timestamps".  The origin
timestamps are opaque to every property verified here and are omitted.
`aggSources` records, for aggregate tables, "a reference to the specific
lower-period table it aggregates from" (`get_aggregation_source`). -/
structure TimeseriesConfig where
  assetClasses : List String
  tables : String → List AssetTable
  aggSources : AssetTable → AssetTable

/-- Modelled from the spec: `TimeseriesConfig.all_tables(asset)` returns the
asset class's configured table specifications; with `include_raw=False` the
raw tables are excluded. -/
def TimeseriesConfig.all_tables (c : TimeseriesConfig) (asset : String)
    (includeRaw : Bool := true) : List AssetTable :=
  if includeRaw then c.tables asset else (c.tables asset).filter (fun t => !t.raw)

/-- Modelled from the spec: `TimeseriesConfig.raw_tables(asset)` returns the
asset class's raw table specifications. -/
def TimeseriesConfig.raw_tables (c : TimeseriesConfig) (asset : String) :
    List AssetTable :=
  (c.tables asset).filter (fun t => t.raw)

/-- Ascending-by-period comparison used by `tbls.sort(key=lambda x: x.period)`. -/
def ascP (x y : AssetTable) : Prop := x.period ≤ y.period

/-- Descending-by-period comparison used by
`tbls.sort(key=lambda x: x.period, reverse=True)`. -/
def descP (x y : AssetTable) : Prop := y.period ≤ x.period

instance : DecidableRel ascP := fun x y => Nat.decLe x.period y.period

instance : DecidableRel descP := fun x y => Nat.decLe y.period x.period

instance : IsTotal AssetTable ascP :=
  ⟨fun x y => Nat.le_total x.period y.period⟩

instance : IsTrans AssetTable ascP :=
  ⟨fun _ _ _ h h' => Nat.le_trans h h'⟩

instance : IsTotal AssetTable descP :=
  ⟨fun x y => Nat.le_total y.period x.period⟩

instance : IsTrans AssetTable descP :=
  ⟨fun _ _ _ h h' => Nat.le_trans h' h⟩

/-- Python's stable `list.sort(key=lambda x: x.period)`. -/
def sortAsc (l : List AssetTable) : List AssetTable := l.insertionSort ascP

/-- Python's stable `list.sort(key=lambda x: x.period, reverse=True)`. -/
def sortDesc (l : List AssetTable) : List AssetTable := l.insertionSort descP

/-! ## Config Differencer (asset-class level set diffs)

`_add_timeseries_asset_classes` line 273:
`additions = set(config.asset_classes).difference(stored_config.asset_classes)`;
`_update_timeseries_asset_classes` lines 324-326:
`asset_updates = set(config.asset_classes).intersection(stored_config.asset_classes)`;
`_del_timeseries_asset_classes` line 424:
`removals = set(stored_config.asset_classes).difference(config.asset_classes)`.
-/

/-- The `toAdd` set: desired asset classes minus stored ones. -/
def assetAdditions (config stored : TimeseriesConfig) : Finset String :=
  config.assetClasses.toFinset \ stored.assetClasses.toFinset

/-- The `toUpdate` set: desired intersect stored asset classes. -/
def assetUpdates (config stored : TimeseriesConfig) : Finset String :=
  config.assetClasses.toFinset ∩ stored.assetClasses.toFinset

/-- The `toRemove` set: stored asset classes minus desired ones. -/
def assetRemovals (config stored : TimeseriesConfig) : Finset String :=
  stored.assetClasses.toFinset \ config.assetClasses.toFinset

/-- C2: the three reconciliation sets are pairwise disjoint and together cover
exactly the union of the desired and stored asset-class sets. -/
theorem diff_partition (config stored : TimeseriesConfig) :
    Disjoint (assetAdditions config stored) (assetUpdates config stored) ∧
    Disjoint (assetAdditions config stored) (assetRemovals config stored) ∧
    Disjoint (assetUpdates config stored) (assetRemovals config stored) ∧
    assetAdditions config stored ∪ assetUpdates config stored ∪
        assetRemovals config stored =
      config.assetClasses.toFinset ∪ stored.assetClasses.toFinset := by
  refine ⟨?_, ?_, ?_, ?_⟩
  · rw [Finset.disjoint_left]
    intro a ha hb
    simp only [assetAdditions, assetUpdates, Finset.mem_sdiff,
      Finset.mem_inter] at ha hb
    exact ha.2 hb.2
  · rw [Finset.disjoint_left]
    intro a ha hb
    simp only [assetAdditions, assetRemovals, Finset.mem_sdiff] at ha hb
    exact hb.2 ha.1
  · rw [Finset.disjoint_left]
    intro a ha hb
    simp only [assetUpdates, assetRemovals, Finset.mem_sdiff,
      Finset.mem_inter] at ha hb
    exact hb.2 ha.1
  · ext a
    simp only [assetAdditions, assetUpdates, assetRemovals, Finset.mem_union,
      Finset.mem_sdiff, Finset.mem_inter]
    tauto

/-! ## Statement traces of the reconciliation phases

Each `cursor.execute` issued by a phase is recorded as one `Stmt`, in program
order.  Confirmation prompts (`input(...)`) are supplied as explicit answer
arguments; the code accepts exactly the answers `"y"` and `"Y"`.
-/

/-- One SQL statement executed by a reconciliation phase. -/
inductive Stmt where
  /-- `self[Op.INSERT, SeriesTbls._ORIGIN](schema, asset, **origin_args)` -/
  | insertOrigin (schema asset : String)
  /-- `self[Op.CREATE, SeriesTbls.TICK | SeriesTbls.RAW_AGGREGATE](schema, tbl)` -/
  | createRaw (schema : String) (tbl : AssetTable)
  /-- `self[Op.CREATE, SeriesTbls.CONTINOUS_TICK_AGG | CONTINUOUS_AGG](schema, tbl, ref)` -/
  | createAggregate (schema : String) (tbl ref : AssetTable)
  /-- `self[Op.UPDATE, SeriesTbls._ORIGIN](schema, asset, **origin_args)` -/
  | updateOrigin (schema asset : String)
  /-- `self[Op.DROP, Generic.VIEW](schema, tbl.table_name)`; the rendered
  statement uses only `tbl.name`, the full spec is kept for bookkeeping. -/
  | dropView (schema : String) (tbl : AssetTable)
  /-- `self[Op.DROP, Generic.TABLE](schema, tbl.table_name)`; the rendered
  statement uses only `tbl.name`, the full spec is kept for bookkeeping. -/
  | dropTable (schema : String) (tbl : AssetTable)
  /-- `self[Op.DELETE, SeriesTbls._ORIGIN](schema, asset)` -/
  | deleteOrigin (schema asset : String)
deriving DecidableEq, Repr

/-- `_del == "y" or _del == "Y"`: the only affirmative confirmation answers. -/
def affirmative (ans : String) : Prop := ans = "y" ∨ ans = "Y"

instance : DecidablePred affirmative := fun ans =>
  inferInstanceAs (Decidable (ans = "y" ∨ ans = "Y"))

/-- Statements `_add_timeseries_asset_classes` executes for one asset class in
the `toAdd` set: insert the origin row, create every raw table (in
`raw_tables` order), then create every continuous aggregate in ascending
period order, each with its resolved aggregation source. -/
def addAssetStmts (schema : String) (config : TimeseriesConfig)
    (asset : String) : List Stmt :=
  Stmt.insertOrigin schema asset ::
    (config.raw_tables asset).map (fun t => Stmt.createRaw schema t) ++
      (sortAsc (config.all_tables asset false)).map
        (fun t => Stmt.createAggregate schema t (config.aggSources t))

/-- Statements `_add_timeseries_asset_classes` executes in total: one block
per asset class in `toAdd` (iterating the desired list, deduplicated, as the
determinisation of Python's set iteration). -/
def addPhaseStmts (schema : String) (config stored : TimeseriesConfig) :
    List Stmt :=
  ((config.assetClasses.filter
      (fun a => decide (a ∉ stored.assetClasses))).dedup).flatMap
    (addAssetStmts schema config)

/-- Statements `_update_timeseries_asset_classes` executes for one asset class
in the `toUpdate` set.  `ans` answers the per-asset confirmation prompt;
`rawAns tbl` answers the per-raw-table deletion prompt.  If the per-asset
table diff is empty the asset is skipped before any prompt; declining the
per-asset prompt executes nothing; on acceptance: update the origin row, drop
every stored aggregate in descending period order, drop individually-confirmed
removed raw tables, create added raw tables, and recreate the full aggregate
set in ascending period order. -/
def updateAssetStmts (schema : String) (config stored : TimeseriesConfig)
    (asset : String) (ans : String) (rawAns : AssetTable → String) :
    List Stmt :=
  let removals := (stored.all_tables asset).filter
    (fun t => decide (t ∉ config.all_tables asset))
  let additions := (config.all_tables asset).filter
    (fun t => decide (t ∉ stored.all_tables asset))
  if removals.isEmpty ∧ additions.isEmpty then []
  else if ¬ affirmative ans then []
  else
    Stmt.updateOrigin schema asset ::
      (sortDesc (stored.all_tables asset false)).map
        (fun t => Stmt.dropView schema t) ++
      ((removals.filter (fun t => t.raw)).filter
          (fun t => affirmative (rawAns t))).map
        (fun t => Stmt.dropTable schema t) ++
      (additions.filter (fun t => t.raw)).map
        (fun t => Stmt.createRaw schema t) ++
      (sortAsc (config.all_tables asset false)).map
        (fun t => Stmt.createAggregate schema t (config.aggSources t))

/-- Statements `_update_timeseries_asset_classes` executes in total. -/
def updatePhaseStmts (schema : String) (config stored : TimeseriesConfig)
    (ans : String → String) (rawAns : String → AssetTable → String) :
    List Stmt :=
  ((config.assetClasses.filter
      (fun a => decide (a ∈ stored.assetClasses))).dedup).flatMap
    (fun a => updateAssetStmts schema config stored a (ans a) (rawAns a))

/-- Statements `_del_timeseries_asset_classes` executes for one asset class in
the `toRemove` set.  `ans1` answers the first confirmation prompt, `ans2` the
second; any non-affirmative answer aborts with zero statements.  On double
confirmation: delete the origin row, then drop every table of the asset class
in descending period order (views for aggregates, cascading table drops for
raw tables). -/
def delAssetStmts (schema : String) (stored : TimeseriesConfig)
    (asset : String) (ans1 ans2 : String) : List Stmt :=
  if ¬ affirmative ans1 then []
  else if ¬ affirmative ans2 then []
  else
    Stmt.deleteOrigin schema asset ::
      (sortDesc (stored.all_tables asset)).map
        (fun t =>
          if t.raw then Stmt.dropTable schema t
          else Stmt.dropView schema t)

/-- Statements `_del_timeseries_asset_classes` executes in total. -/
def delPhaseStmts (schema : String) (config stored : TimeseriesConfig)
    (ans1 ans2 : String → String) : List Stmt :=
  ((stored.assetClasses.filter
      (fun a => decide (a ∉ config.assetClasses))).dedup).flatMap
    (fun a => delAssetStmts schema stored a (ans1 a) (ans2 a))

/-- All statements `_configure_timeseries_schema` executes through its three
phases, in order: add, update, remove. -/
def reconcileStmts (schema : String) (config stored : TimeseriesConfig)
    (ans : String → String) (rawAns : String → AssetTable → String)
    (ans1 ans2 : String → String) : List Stmt :=
  addPhaseStmts schema config stored ++
    updatePhaseStmts schema config stored ans rawAns ++
      delPhaseStmts schema config stored ans1 ans2

/-- A self-difference `set(l).difference(l)` is empty. -/
theorem filter_not_mem_self {α : Type} [DecidableEq α] (l : List α) :
    l.filter (fun t => decide (t ∉ l)) = [] := by
  rw [List.filter_eq_nil_iff]
  intro a ha
  simp [ha]

/-- A flat map whose blocks are all empty is empty. -/
theorem flatMap_eq_nil_of_forall {α β : Type} (l : List α) (f : α → List β)
    (h : ∀ a ∈ l, f a = []) : l.flatMap f = [] := by
  induction l with
  | nil => rfl
  | cons a t ih =>
    simp only [List.flatMap_cons, h a (by simp), List.nil_append]
    exact ih (fun b hb => h b (by simp [hb]))

/-- When the desired and stored configurations agree, the update phase skips
every asset class before its confirmation prompt. -/
theorem updateAssetStmts_self_eq_nil (schema : String) (c : TimeseriesConfig)
    (asset ans : String) (rawAns : AssetTable → String) :
    updateAssetStmts schema c c asset ans rawAns = [] := by
  unfold updateAssetStmts
  simp [filter_not_mem_self]

/-- C8: re-running reconciliation with the same desired configuration against
a store already converged to it executes zero statements: the add and remove
phases find empty asset-class sets, and the update phase finds an empty table
diff for every asset class and skips it. -/
theorem reconcile_idempotent (schema : String) (c : TimeseriesConfig)
    (ans : String → String) (rawAns : String → AssetTable → String)
    (ans1 ans2 : String → String) :
    reconcileStmts schema c c ans rawAns ans1 ans2 = [] := by
  unfold reconcileStmts addPhaseStmts updatePhaseStmts delPhaseStmts
  rw [filter_not_mem_self]
  simp only [List.dedup_nil, List.flatMap_nil, List.nil_append,
    List.append_nil]
  exact flatMap_eq_nil_of_forall _ _ (fun a _ =>
    updateAssetStmts_self_eq_nil schema c a (ans a) (rawAns a))

/-- C3: declining any confirmation executes zero statements.  (1) A
non-affirmative answer to the update phase's per-asset prompt leaves that
asset class untouched.  (2) In the removal phase, a non-affirmative answer to
the first prompt executes zero statements.  (3) An affirmative first answer
followed by a non-affirmative second answer also executes zero statements. -/
theorem declined_confirmation_no_stmts (schema : String)
    (config stored : TimeseriesConfig) (asset : String) :
    (∀ ans rawAns, ¬ affirmative ans →
      updateAssetStmts schema config stored asset ans rawAns = []) ∧
    (∀ ans1 ans2, ¬ affirmative ans1 →
      delAssetStmts schema stored asset ans1 ans2 = []) ∧
    (∀ ans1 ans2, affirmative ans1 → ¬ affirmative ans2 →
      delAssetStmts schema stored asset ans1 ans2 = []) := by
  refine ⟨?_, ?_, ?_⟩
  · intro ans rawAns h
    unfold updateAssetStmts
    split
    · simp only [ite_self]
    · next hcontra => exact absurd h hcontra
  · intro ans1 ans2 h
    unfold delAssetStmts
    simp [h]
  · intro ans1 ans2 h1 h2
    unfold delAssetStmts
    simp [h1, h2]

/-- Concrete instantiation of `declined_confirmation_no_stmts`: a one-asset
configuration diff where every prompt is answered `"n"` (and, for the second
removal prompt, after an affirmative `"y"`). -/
theorem declined_confirmation_no_stmts_witness :
    (¬ affirmative "n" ∧
      updateAssetStmts "tick_data"
        ⟨["equity"], fun _ => [⟨"equity_tick", 0, true⟩], id⟩
        ⟨["equity"], fun _ => [], id⟩ "equity" "n" (fun _ => "n") = []) ∧
    (delAssetStmts "tick_data" ⟨["equity"], fun _ => [], id⟩
        "equity" "n" "y" = []) ∧
    (affirmative "y" ∧
      delAssetStmts "tick_data" ⟨["equity"], fun _ => [], id⟩
        "equity" "y" "n" = []) := by
  have h := declined_confirmation_no_stmts "tick_data"
    ⟨["equity"], fun _ => [⟨"equity_tick", 0, true⟩], id⟩
    ⟨["equity"], fun _ => [], id⟩ "equity"
  have hn : ¬ affirmative "n" := by decide
  have hy : affirmative "y" := by decide
  exact ⟨⟨hn, h.1 "n" (fun _ => "n") hn⟩,
    (declined_confirmation_no_stmts "tick_data"
        ⟨["equity"], fun _ => [⟨"equity_tick", 0, true⟩], id⟩
        ⟨["equity"], fun _ => [], id⟩ "equity").2.1 "n" "y" hn,
    hy, (declined_confirmation_no_stmts "tick_data"
        ⟨["equity"], fun _ => [⟨"equity_tick", 0, true⟩], id⟩
        ⟨["equity"], fun _ => [], id⟩ "equity").2.2 "y" "n" hy hn⟩

/-! ## Creation / deletion ordering (C1) -/

/-- The table a statement creates or drops, if any. -/
def stmtTable : Stmt → Option AssetTable
  | .createRaw _ t => some t
  | .createAggregate _ t _ => some t
  | .dropView _ t => some t
  | .dropTable _ t => some t
  | _ => none

/-- The sequence of tables a statement list creates or drops, in order. -/
def tablesOf (l : List Stmt) : List AssetTable := l.filterMap stmtTable

/-- The period of a continuous-aggregate table created by a statement. -/
def stmtAggPeriod : Stmt → Option Nat
  | .createAggregate _ t _ => some t.period
  | _ => none

/-- The period of a table dropped by a statement. -/
def stmtDropPeriod : Stmt → Option Nat
  | .dropView _ t => some t.period
  | .dropTable _ t => some t.period
  | _ => none

/-- The period of a continuous aggregate dropped (as a view) by a statement:
the update phase's aggregate-drop step emits exactly these. -/
def stmtViewDropPeriod : Stmt → Option Nat
  | .dropView _ t => some t.period
  | _ => none

/-- The table-creation sequence of the additive builder for one asset class:
raw tables in `raw_tables` order, then aggregates in ascending period order. -/
def creationSeq (c : TimeseriesConfig) (asset : String) : List AssetTable :=
  c.raw_tables asset ++ sortAsc (c.all_tables asset false)

/-- Projecting a mapped statement list through an extraction function that
recovers exactly the mapped value yields the original list. -/
theorem filterMap_proj_map {α : Type} (f : Stmt → Option α)
    (g : AssetTable → Stmt) (v : AssetTable → α)
    (h : ∀ t, f (g t) = some (v t)) (l : List AssetTable) :
    (l.map g).filterMap f = l.map v := by
  induction l with
  | nil => rfl
  | cons a t ih => simp [List.filterMap_cons, h, ih]

/-- Projecting a mapped statement list through an extraction function that
ignores every mapped statement yields the empty list. -/
theorem filterMap_proj_map_none {α : Type} (f : Stmt → Option α)
    (g : AssetTable → Stmt) (h : ∀ t, f (g t) = none) (l : List AssetTable) :
    (l.map g).filterMap f = [] := by
  induction l with
  | nil => rfl
  | cons a t ih => simp [List.filterMap_cons, h, ih]

/-- The additive builder's create statements follow `creationSeq`. -/
theorem tablesOf_addAssetStmts (schema : String) (c : TimeseriesConfig)
    (asset : String) :
    tablesOf (addAssetStmts schema c asset) = creationSeq c asset := by
  unfold tablesOf addAssetStmts creationSeq
  have h0 : stmtTable (Stmt.insertOrigin schema asset) = none := rfl
  rw [List.filterMap_append, List.filterMap_cons_none h0,
    filterMap_proj_map stmtTable (fun t => Stmt.createRaw schema t)
      (fun t => t) (fun t => rfl),
    filterMap_proj_map stmtTable
      (fun t => Stmt.createAggregate schema t (c.aggSources t))
      (fun t => t) (fun t => rfl),
    List.map_id', List.map_id']

/-- The removal sequencer's drop statements (after double confirmation) follow
the descending-period sort of the asset class's tables. -/
theorem tablesOf_delAssetStmts (schema : String) (stored : TimeseriesConfig)
    (asset : String) :
    tablesOf (delAssetStmts schema stored asset "y" "y") =
      sortDesc (stored.all_tables asset) := by
  unfold tablesOf delAssetStmts
  have h0 : stmtTable (Stmt.deleteOrigin schema asset) = none := rfl
  rw [if_neg (by decide), if_neg (by decide), List.filterMap_cons_none h0,
    filterMap_proj_map stmtTable _ (fun t => t)
      (fun t => by cases h : t.raw <;> simp [stmtTable, h]), List.map_id']

/-- Two permuted lists, one strictly descending and the other weakly
descending by period, are equal. -/
theorem eq_of_perm_of_strict_sorted :
    ∀ {l₁ l₂ : List AssetTable}, l₁.Perm l₂ →
      l₁.Pairwise (fun x y => y.period < x.period) → l₂.Pairwise descP →
      l₁ = l₂ := by
  intro l₁
  induction l₁ with
  | nil =>
    intro l₂ hp _ _
    exact (List.Perm.eq_nil hp.symm).symm
  | cons a t ih =>
    intro l₂ hp h₁ h₂
    cases l₂ with
    | nil => exact absurd (List.Perm.eq_nil hp) (by simp)
    | cons b t' =>
      have hab : a = b := by
        by_contra hne
        have hbmem : b ∈ a :: t := hp.symm.subset (List.mem_cons_self b t')
        have hamem : a ∈ b :: t' := hp.subset (List.mem_cons_self a t)
        have hb : b ∈ t := by
          rcases List.mem_cons.mp hbmem with h | h
          · exact absurd h.symm hne
          · exact h
        have ha : a ∈ t' := by
          rcases List.mem_cons.mp hamem with h | h
          · exact absurd h hne
          · exact h
        have hlt : b.period < a.period := (List.pairwise_cons.mp h₁).1 b hb
        have hle : a.period ≤ b.period := (List.pairwise_cons.mp h₂).1 a ha
        omega
      subst hab
      rw [ih hp.cons_inv (List.pairwise_cons.mp h₁).2
        (List.pairwise_cons.mp h₂).2]

/-- `creationSeq` is a permutation of the asset class's configured tables. -/
theorem creationSeq_perm (c : TimeseriesConfig) (asset : String) :
    (creationSeq c asset).Perm (c.all_tables asset) := by
  unfold creationSeq sortAsc TimeseriesConfig.raw_tables
    TimeseriesConfig.all_tables
  simp only [if_pos trivial, Bool.not_eq_true]
  refine List.Perm.trans
    (List.Perm.append_left _ (List.perm_insertionSort ascP _)) ?_
  simpa using List.filter_append_perm (fun t => t.raw) (c.tables asset)

/-- C1 (amended): (1) the additive builder creates continuous aggregates in
ascending period order; (2) the removal sequencer drops tables in descending
period order; (3) the rebuild step of the update phase recreates continuous
aggregates in ascending period order, whatever the prompt answers; (4) the
aggregate-drop step of the update phase drops the stored continuous
aggregates in descending period order, whatever the prompt answers; (5) when
the creation sequence (raw tables first, then ascending aggregates) has
strictly increasing periods, the removal sequencer's drop order is the exact
reverse of the additive builder's creation order. -/
theorem creation_deletion_order (schema : String) (c stored : TimeseriesConfig)
    (asset : String) :
    ((addAssetStmts schema c asset).filterMap stmtAggPeriod).Pairwise
        (fun x y => x ≤ y) ∧
    ((delAssetStmts schema c asset "y" "y").filterMap stmtDropPeriod).Pairwise
        (fun x y => y ≤ x) ∧
    (∀ ans rawAns,
      ((updateAssetStmts schema c stored asset ans rawAns).filterMap
          stmtAggPeriod).Pairwise (fun x y => x ≤ y)) ∧
    (∀ ans rawAns,
      ((updateAssetStmts schema c stored asset ans rawAns).filterMap
          stmtViewDropPeriod).Pairwise (fun x y => y ≤ x)) ∧
    ((creationSeq c asset).Pairwise (fun x y => x.period < y.period) →
      tablesOf (delAssetStmts schema c asset "y" "y") =
        (tablesOf (addAssetStmts schema c asset)).reverse) := by
  refine ⟨?_, ?_, ?_, ?_, ?_⟩
  · unfold addAssetStmts
    have h0 : stmtAggPeriod (Stmt.insertOrigin schema asset) = none := rfl
    rw [List.filterMap_append, List.filterMap_cons_none h0,
      filterMap_proj_map_none stmtAggPeriod
        (fun t => Stmt.createRaw schema t) (fun t => rfl),
      filterMap_proj_map stmtAggPeriod
        (fun t => Stmt.createAggregate schema t (c.aggSources t))
        (fun t => t.period) (fun t => rfl),
      List.nil_append]
    have hs : (sortAsc (c.all_tables asset false)).Pairwise ascP :=
      List.sorted_insertionSort ascP _
    exact hs.map _ (fun _ _ hab => hab)
  · unfold delAssetStmts
    have h0 : stmtDropPeriod (Stmt.deleteOrigin schema asset) = none := rfl
    rw [if_neg (by decide), if_neg (by decide), List.filterMap_cons_none h0,
      filterMap_proj_map stmtDropPeriod _ (fun t => t.period)
        (fun t => by cases h : t.raw <;> simp [stmtDropPeriod, h])]
    have hs : (sortDesc (c.all_tables asset)).Pairwise descP :=
      List.sorted_insertionSort descP _
    exact hs.map _ (fun _ _ hab => hab)
  · intro ans rawAns
    unfold updateAssetStmts
    split
    · simp [ite_self]
    · dsimp only
      split
      · simp
      · have h0 : stmtAggPeriod (Stmt.updateOrigin schema asset) = none := rfl
        rw [List.filterMap_append, List.filterMap_append,
          List.filterMap_append, List.filterMap_cons_none h0,
          filterMap_proj_map_none stmtAggPeriod
            (fun t => Stmt.dropView schema t) (fun t => rfl),
          filterMap_proj_map_none stmtAggPeriod
            (fun t => Stmt.dropTable schema t) (fun t => rfl),
          filterMap_proj_map_none stmtAggPeriod
            (fun t => Stmt.createRaw schema t) (fun t => rfl),
          filterMap_proj_map stmtAggPeriod
            (fun t => Stmt.createAggregate schema t (c.aggSources t))
            (fun t => t.period) (fun t => rfl)]
        simp only [List.nil_append, List.append_nil]
        have hs : (sortAsc (c.all_tables asset false)).Pairwise ascP :=
          List.sorted_insertionSort ascP _
        exact hs.map _ (fun _ _ hab => hab)
  · intro ans rawAns
    unfold updateAssetStmts
    split
    · simp [ite_self]
    · dsimp only
      split
      · simp
      · have h0 : stmtViewDropPeriod (Stmt.updateOrigin schema asset) =
            none := rfl
        rw [List.filterMap_append, List.filterMap_append,
          List.filterMap_append, List.filterMap_cons_none h0,
          filterMap_proj_map stmtViewDropPeriod
            (fun t => Stmt.dropView schema t)
            (fun t => t.period) (fun t => rfl),
          filterMap_proj_map_none stmtViewDropPeriod
            (fun t => Stmt.dropTable schema t) (fun t => rfl),
          filterMap_proj_map_none stmtViewDropPeriod
            (fun t => Stmt.createRaw schema t) (fun t => rfl),
          filterMap_proj_map_none stmtViewDropPeriod
            (fun t => Stmt.createAggregate schema t (c.aggSources t))
            (fun t => rfl)]
        simp only [List.nil_append, List.append_nil]
        have hs : (sortDesc (stored.all_tables asset false)).Pairwise descP :=
          List.sorted_insertionSort descP _
        exact hs.map _ (fun _ _ hab => hab)
  · intro h
    rw [tablesOf_addAssetStmts, tablesOf_delAssetStmts]
    refine (eq_of_perm_of_strict_sorted ?_ ?_ ?_).symm
    · exact ((creationSeq c asset).reverse_perm.trans
        (creationSeq_perm c asset)).trans
        (List.perm_insertionSort descP _).symm
    · exact List.pairwise_reverse.mpr h
    · exact List.sorted_insertionSort descP _

/-- Concrete instantiation of `creation_deletion_order` on the spec's example
asset class (tick raw table plus 1m/5m/1h aggregates): the creation sequence
is strictly ascending, so teardown is the exact reverse of creation. -/
theorem creation_deletion_order_witness :
    (creationSeq
        ⟨["equity"],
          fun _ => [⟨"equity_tick", 0, true⟩, ⟨"equity_1m", 60, false⟩,
            ⟨"equity_5m", 300, false⟩, ⟨"equity_1h", 3600, false⟩],
          fun _ => ⟨"equity_tick", 0, true⟩⟩ "equity").Pairwise
      (fun x y => x.period < y.period) ∧
    tablesOf (delAssetStmts "minute_data"
        ⟨["equity"],
          fun _ => [⟨"equity_tick", 0, true⟩, ⟨"equity_1m", 60, false⟩,
            ⟨"equity_5m", 300, false⟩, ⟨"equity_1h", 3600, false⟩],
          fun _ => ⟨"equity_tick", 0, true⟩⟩ "equity" "y" "y") =
      (tablesOf (addAssetStmts "minute_data"
        ⟨["equity"],
          fun _ => [⟨"equity_tick", 0, true⟩, ⟨"equity_1m", 60, false⟩,
            ⟨"equity_5m", 300, false⟩, ⟨"equity_1h", 3600, false⟩],
          fun _ => ⟨"equity_tick", 0, true⟩⟩ "equity")).reverse := by
  refine ⟨by decide, ?_⟩
  exact (creation_deletion_order "minute_data"
    ⟨["equity"],
      fun _ => [⟨"equity_tick", 0, true⟩, ⟨"equity_1m", 60, false⟩,
        ⟨"equity_5m", 300, false⟩, ⟨"equity_1h", 3600, false⟩],
      fun _ => ⟨"equity_tick", 0, true⟩⟩
    ⟨["equity"],
      fun _ => [⟨"equity_tick", 0, true⟩, ⟨"equity_1m", 60, false⟩,
        ⟨"equity_5m", 300, false⟩, ⟨"equity_1h", 3600, false⟩],
      fun _ => ⟨"equity_tick", 0, true⟩⟩ "equity").2.2.2.2 (by decide)

/-- C1 counterexample: an asset class whose (spec-modelled) raw-table list is
not in ascending period order.  Creation emits the raw tables in list order
(5-minute then 1-minute), while teardown drops in descending period order
(also 5-minute then 1-minute), so the drop order is *not* the reverse of the
creation order. -/
theorem creation_deletion_not_always_reverse :
    ¬ (tablesOf (delAssetStmts "minute_data"
        ⟨["futures"],
          fun _ => [⟨"futures_5m", 300, true⟩, ⟨"futures_1m", 60, true⟩],
          fun t => t⟩ "futures" "y" "y") =
      (tablesOf (addAssetStmts "minute_data"
        ⟨["futures"],
          fun _ => [⟨"futures_5m", 300, true⟩, ⟨"futures_1m", 60, true⟩],
          fun t => t⟩ "futures")).reverse) := by
  decide

/-! ## Symbol Merge Pipeline (`upsert_securities`) -/

/-- The `on_conflict` parameter of `upsert_securities`. -/
inductive OnConflict where
  | update
  | ignore
deriving DecidableEq, Repr

/-- A pandas DataFrame, abstracted to its column labels and rows. -/
structure PyDataFrame where
  cols : List String
  rows : List (List String)
deriving DecidableEq, Repr

/-- A Python argument that may fail an `isinstance` check. -/
inductive PyArg (α : Type) where
  | val (a : α)
  | invalid
deriving DecidableEq, Repr

/-- Per-character lowercasing, modelling pandas `symbols.columns.str.lower()`
(kept executable character by character). -/
def lowerStr (s : String) : String := ⟨s.data.map Char.toLower⟩

/-- `req_cols = {"symbol", "name", "exchange", "asset_class"}`. -/
def reqCols : List String := ["symbol", "name", "exchange", "asset_class"]

/-- A database interaction performed by `upsert_securities`. -/
inductive SecurityStmt where
  /-- `self[Op.CREATE, AssetTbls.SYMBOLS_BUFFER]()` -/
  | createBuffer
  /-- `copy.write_row(row)` -/
  | copyRow (row : List String)
  /-- `self[Op.UPSERT | Op.INSERT, AssetTbls.SYMBOLS_BUFFER](source)` -/
  | merge (onConflict : OnConflict) (source : String)
deriving DecidableEq, Repr

/-- Modelled from the spec: the primary key the merge derives from each staged
row ("(Ticker, Exchange, Source)"). -/
def rowKeys (df : PyDataFrame) : List String :=
  df.rows.map (String.intercalate "|")

/-- Modelled from the spec: the merge "return[s] the primary key plus a system
conflict-marker column for every affected row".  Under insert-or-ignore only
newly inserted rows are affected; the conflict marker (`xmax`) is `"0"` for a
freshly inserted row and nonzero (here `"1"`) for a row that replaced an
existing version.  `existing` is the set of primary keys already present. -/
def mergeResponse (existing batch : List String) :
    OnConflict → List (String × String)
  | .ignore =>
    (batch.filter (fun k => decide (k ∉ existing))).map (fun k => (k, "0"))
  | .update => batch.map (fun k => (k, if k ∈ existing then "1" else "0"))

/-- The classification step of `upsert_securities` (lines 156-165): an empty
response yields two empty series; under `Op.INSERT` (ignore mode) every
returned symbol was inserted and none updated; under `Op.UPSERT` (update mode)
the rows whose `xmax` column equals `"0"` were inserted and the rest updated. -/
def classifyResponse (onConflict : OnConflict)
    (response : List (String × String)) : List String × List String :=
  if response.length = 0 then ([], [])
  else
    match onConflict with
    | .ignore => (response.map Prod.fst, [])
    | .update =>
      ((response.filter (fun r => r.2 == "0")).map Prod.fst,
        (response.filter (fun r => !(r.2 == "0"))).map Prod.fst)

/-- The observable outcome of one `upsert_securities` call: the two returned
series, the database interactions performed, and the caller's `symbols`
argument as it stands after the call (pandas column assignment mutates it in
place). -/
structure UpsertResult where
  inserted : List String
  updated : List String
  stmts : List SecurityStmt
  symbolsAfter : PyArg PyDataFrame
deriving DecidableEq, Repr

/-- `upsert_securities` (lines 110-165): validate the `source` string and the
`symbols` DataFrame, lowercase the DataFrame's column labels in place, check
the required columns, then stage the rows into a buffer table, merge with the
requested conflict policy, and classify the returned rows. -/
def upsert_securities (symbols : PyArg PyDataFrame) (source : PyArg String)
    (onConflict : OnConflict) (existing : List String) : UpsertResult :=
  match source with
  | .invalid => ⟨[], [], [], symbols⟩
  | .val s =>
    if s = "" then ⟨[], [], [], symbols⟩
    else
      match symbols with
      | .invalid => ⟨[], [], [], .invalid⟩
      | .val df =>
        let df' : PyDataFrame := ⟨df.cols.map lowerStr, df.rows⟩
        if (reqCols.filter (fun c => decide (c ∉ df'.cols))).length ≠ 0 then
          ⟨[], [], [], .val df'⟩
        else
          let p := classifyResponse onConflict
            (mergeResponse existing (rowKeys df') onConflict)
          ⟨p.1, p.2,
            SecurityStmt.createBuffer ::
              df'.rows.map SecurityStmt.copyRow ++
                [SecurityStmt.merge onConflict s],
            .val df'⟩

/-- Classification over a mapped-and-filtered response reduces to a filter of
the batch keys. -/
theorem classify_map_filter (existing batch : List String) :
    ((batch.map
        (fun k => ((k, if k ∈ existing then "1" else "0") :
          String × String))).filter (fun r => r.2 == "0")).map Prod.fst =
      batch.filter (fun k => decide (k ∉ existing)) ∧
    ((batch.map
        (fun k => ((k, if k ∈ existing then "1" else "0") :
          String × String))).filter (fun r => !(r.2 == "0"))).map Prod.fst =
      batch.filter (fun k => decide (k ∈ existing)) := by
  induction batch with
  | nil => exact ⟨rfl, rfl⟩
  | cons k t ih =>
    by_cases hk : k ∈ existing
    · simp only [List.map_cons, List.filter_cons, if_pos hk]
      constructor
      · simpa [hk] using ih.1
      · simpa [hk] using ih.2
    · simp only [List.map_cons, List.filter_cons, if_neg hk]
      constructor
      · simpa [hk] using ih.1
      · simpa [hk] using ih.2

/-- C4: classification of the merge result.  Under insert-or-ignore every
returned row is classified as inserted and the updated series is empty; under
insert-or-update a row is classified as inserted iff its conflict marker shows
no prior version existed (the batch keys absent from the store) and as updated
otherwise (the batch keys present in the store).  In particular a two-row
batch with one brand-new key and one pre-existing key yields one inserted and
one updated identifier under update mode, and one inserted and zero updated
under ignore mode. -/
theorem upsert_classification (existing batch : List String) :
    classifyResponse .ignore (mergeResponse existing batch .ignore) =
      (batch.filter (fun k => decide (k ∉ existing)), []) ∧
    classifyResponse .update (mergeResponse existing batch .update) =
      (batch.filter (fun k => decide (k ∉ existing)),
        batch.filter (fun k => decide (k ∈ existing))) ∧
    (classifyResponse .update
        (mergeResponse ["OLD"] ["NEW", "OLD"] .update)).1.length = 1 ∧
    (classifyResponse .update
        (mergeResponse ["OLD"] ["NEW", "OLD"] .update)).2.length = 1 ∧
    (classifyResponse .ignore
        (mergeResponse ["OLD"] ["NEW", "OLD"] .ignore)).1.length = 1 ∧
    (classifyResponse .ignore
        (mergeResponse ["OLD"] ["NEW", "OLD"] .ignore)).2.length = 0 := by
  refine ⟨?_, ?_, by decide, by decide, by decide, by decide⟩
  · show classifyResponse .ignore
        ((batch.filter (fun k => decide (k ∉ existing))).map
          (fun k => (k, "0"))) =
      (batch.filter (fun k => decide (k ∉ existing)), [])
    cases hf : batch.filter (fun k => decide (k ∉ existing)) with
    | nil => rfl
    | cons a t =>
      unfold classifyResponse
      rw [if_neg (by simp)]
      refine congrArg (fun x => (x, ([] : List String))) ?_
      rw [List.map_map]
      exact List.map_id' _
  · show classifyResponse .update
        (batch.map (fun k => (k, if k ∈ existing then "1" else "0"))) =
      (batch.filter (fun k => decide (k ∉ existing)),
        batch.filter (fun k => decide (k ∈ existing)))
    cases batch with
    | nil => rfl
    | cons a t =>
      unfold classifyResponse
      rw [if_neg (by simp)]
      simp only [Prod.mk.injEq]
      exact ⟨(classify_map_filter existing (a :: t)).1,
        (classify_map_filter existing (a :: t)).2⟩

/-- C5: every validation failure of `upsert_securities` — non-string source,
empty source, non-DataFrame symbols argument, or missing required columns —
short-circuits with two empty result series and zero database interactions
(and, being a plain return, raises nothing). -/
theorem upsert_validation_shortcircuit (onConflict : OnConflict)
    (existing : List String) :
    (∀ symbols, upsert_securities symbols .invalid onConflict existing =
      ⟨[], [], [], symbols⟩) ∧
    (∀ symbols, upsert_securities symbols (.val "") onConflict existing =
      ⟨[], [], [], symbols⟩) ∧
    (∀ s, s ≠ "" →
      upsert_securities .invalid (.val s) onConflict existing =
        ⟨[], [], [], .invalid⟩) ∧
    (∀ df s, s ≠ "" →
      (∃ rc ∈ reqCols, rc ∉ df.cols.map lowerStr) →
      upsert_securities (.val df) (.val s) onConflict existing =
        ⟨[], [], [], .val ⟨df.cols.map lowerStr, df.rows⟩⟩) := by
  refine ⟨fun symbols => rfl, fun symbols => by simp [upsert_securities],
    ?_, ?_⟩
  · intro s hs
    show (if s = "" then _ else _) = _
    rw [if_neg hs]
  · intro df s hs hmissing
    have hne : (reqCols.filter
        (fun c => decide (c ∉ df.cols.map lowerStr))).length ≠ 0 := by
      obtain ⟨rc, hrcmem, hrcnot⟩ := hmissing
      intro hlen
      have hnil := List.length_eq_zero.mp hlen
      rw [List.filter_eq_nil_iff] at hnil
      exact hnil rc hrcmem (by simpa using hrcnot)
    show (if s = "" then _ else _) = _
    rw [if_neg hs]
    show (if _ ≠ 0 then _ else _) = _
    rw [if_pos hne]

/-- Concrete instantiation of `upsert_validation_shortcircuit`: a nonempty
source and a DataFrame missing the `asset_class` column. -/
theorem upsert_validation_shortcircuit_witness :
    upsert_securities
        (.val ⟨["Symbol", "Name", "Exchange"], [["msft", "Microsoft", "NYSE"]]⟩)
        (.val "alpaca") .update [] =
      ⟨[], [], [],
        .val ⟨["symbol", "name", "exchange"], [["msft", "Microsoft", "NYSE"]]⟩⟩ := by
  have h := (upsert_validation_shortcircuit .update []).2.2.2
    ⟨["Symbol", "Name", "Exchange"], [["msft", "Microsoft", "NYSE"]]⟩
    "alpaca" (by decide) ⟨"asset_class", by decide, by decide⟩
  simpa using h

/-- C10: whenever the `source` and `symbols` arguments pass the type checks,
the caller's DataFrame is mutated in place — its column labels are lowercased
— and this is the only mutation: rows are untouched and the lowercasing
persists whether or not the call then fails the required-column validation. -/
theorem upsert_mutates_columns_in_place (df : PyDataFrame) (s : String)
    (hs : s ≠ "") (onConflict : OnConflict) (existing : List String) :
    (upsert_securities (.val df) (.val s) onConflict existing).symbolsAfter =
      .val ⟨df.cols.map lowerStr, df.rows⟩ := by
  show ((if s = "" then _ else _) : UpsertResult).symbolsAfter = _
  rw [if_neg hs]
  show ((if _ ≠ 0 then _ else _) : UpsertResult).symbolsAfter = _
  split
  · rfl
  · rfl

/-- Concrete instantiation of `upsert_mutates_columns_in_place`: the caller's
DataFrame has its column labels lowercased even though the call fails the
required-column validation. -/
theorem upsert_mutates_columns_in_place_witness :
    (upsert_securities (.val ⟨["Symbol", "MAX"], [["spy", "7"]]⟩)
        (.val "ibkr") .ignore []).symbolsAfter =
      .val ⟨["Symbol", "MAX"].map lowerStr, [["spy", "7"]]⟩ :=
  upsert_mutates_columns_in_place ⟨["Symbol", "MAX"], [["spy", "7"]]⟩
    "ibkr" (by decide) .ignore []

/-! ## Metadata Gap Resolver (`get_symbol_series_updates`) -/

/-- The three timeseries schema categories. -/
inductive Schema where
  | tick_data
  | minute_data
  | aggregate_data
deriving DecidableEq, Repr

/-- The `MetadataInfo` dataclass (from the absent `sql_cmds` module); modelled
from the spec: "(table identity, schema, observed start timestamp, observed
end timestamp, table specification)".  Timestamps are date strings. -/
structure MetadataInfo where
  table_name : String
  schema : Schema
  start_date : String
  end_date : String
  table : AssetTable
deriving DecidableEq, Repr

/-- The sentinel epoch `Timestamp("1800-01-01")`. -/
def sentinelEpoch : String := "1800-01-01"

/-- One row of the `security.symbols` table, restricted to the columns
`get_symbol_series_updates` selects. -/
structure SymbolRecord where
  pkey : Nat
  asset_class : String
  store_tick : Bool
  store_minute : Bool
  store_aggregate : Bool
deriving DecidableEq, Repr

/-- The state `get_symbol_series_updates` consumes: the symbols table, the
configured raw tables per (schema, asset class) — `none` models the dict
`KeyError` when the asset class has no configured tables at all — and, per
(schema, symbol), the tables for which stored metadata exists (modelled from
the spec: `symbol_series_metadata` reports only what *is* stored). -/
structure MetadataEnv where
  symbols : List SymbolRecord
  rawTableConfig : Schema → String → Option (List AssetTable)
  storedTables : Schema → Nat → List AssetTable

/-- The two error conditions `get_symbol_series_updates` raises. -/
inductive SeriesError where
  /-- `ValueError(f"Cannot determine Symbol updates needed. pkey = ... is unknown.")` -/
  | symbolUnknown (pkey : Nat)
  /-- `KeyError` re-raised with a remediation hint -/
  | prerequisiteNotRun (hint : String)
deriving DecidableEq, Repr

/-- The remediation hint of the re-raised `KeyError` (line 222). -/
def prerequisiteHint : String :=
  "Ensure configure_timeseries_schema has been run prior to inserting symbol data."

/-- `_missing_metadata_tables` (lines 462-480): the configured raw tables of
the asset class minus the tables with stored metadata, each yielding a
synthetic `MetadataInfo` with sentinel start and end dates.  `.error ()`
models the `KeyError` escaping from the raw-table lookup when the asset class
is not configured. -/
def missing_metadata_tables (env : MetadataEnv) (pkey : Nat)
    (asset_class : String) (schema : Schema) :
    Except Unit (List MetadataInfo) :=
  match env.rawTableConfig schema asset_class with
  | none => .error ()
  | some req =>
    .ok
      (((req.filter
          (fun t => decide (t ∉ env.storedTables schema pkey))).dedup).map
        (fun t => ⟨t.name, schema, sentinelEpoch, sentinelEpoch, t⟩))

/-- The storage categories enabled for a symbol, in the order the code checks
them (`store_tick`, `store_minute`, `store_aggregate`). -/
def enabledSchemas (r : SymbolRecord) : List Schema :=
  (if r.store_tick then [Schema.tick_data] else []) ++
    (if r.store_minute then [Schema.minute_data] else []) ++
      (if r.store_aggregate then [Schema.aggregate_data] else [])

/-- The `metadata.extend(...)` loop of `get_symbol_series_updates`: gather the
missing-metadata entries of each enabled category in order, propagating the
first `KeyError`. -/
def gatherMissing (env : MetadataEnv) (pkey : Nat) (asset_class : String) :
    List Schema → Except Unit (List MetadataInfo)
  | [] => .ok []
  | s :: rest =>
    match missing_metadata_tables env pkey asset_class s with
    | .error e => .error e
    | .ok m =>
      match gatherMissing env pkey asset_class rest with
      | .error e => .error e
      | .ok ms => .ok (m ++ ms)

/-- `get_symbol_series_updates` (lines 171-225): look the symbol up by `pkey`
(unknown keys raise `ValueError`); gather the missing-metadata entries of each
enabled storage category; a `KeyError` from an unconfigured asset class is
re-raised with the remediation hint. -/
def get_symbol_series_updates (env : MetadataEnv) (pkey : Nat) :
    Except SeriesError (List MetadataInfo) :=
  match env.symbols.find? (fun r => r.pkey == pkey) with
  | none => .error (.symbolUnknown pkey)
  | some r =>
    match gatherMissing env pkey r.asset_class (enabledSchemas r) with
    | .error _ => .error (.prerequisiteNotRun prerequisiteHint)
    | .ok l => .ok l

/-- C6: when the asset class is configured, `_missing_metadata_tables`
returns exactly one synthetic entry per configured raw table without stored
metadata — none for tables with stored metadata — and every synthetic entry
carries start = end = the sentinel epoch 1800-01-01. -/
theorem missing_metadata_sentinels (env : MetadataEnv) (pkey : Nat)
    (asset_class : String) (schema : Schema) (req : List AssetTable)
    (h : env.rawTableConfig schema asset_class = some req) :
    ∃ l, missing_metadata_tables env pkey asset_class schema = .ok l ∧
      (∀ m ∈ l, m.start_date = sentinelEpoch ∧ m.end_date = sentinelEpoch ∧
        m.schema = schema ∧ m.table_name = m.table.name) ∧
      (∀ t : AssetTable, l.countP (fun m => m.table == t) =
        if t ∈ req ∧ t ∉ env.storedTables schema pkey then 1 else 0) := by
  refine ⟨((req.filter
      (fun t => decide (t ∉ env.storedTables schema pkey))).dedup).map
    (fun t => ⟨t.name, schema, sentinelEpoch, sentinelEpoch, t⟩), ?_, ?_, ?_⟩
  · unfold missing_metadata_tables
    rw [h]
  · intro m hm
    rw [List.mem_map] at hm
    obtain ⟨t, _, rfl⟩ := hm
    exact ⟨rfl, rfl, rfl, rfl⟩
  · intro t
    rw [List.countP_map]
    have hpt : ((fun m : MetadataInfo => m.table == t) ∘
        (fun t : AssetTable =>
          (⟨t.name, schema, sentinelEpoch, sentinelEpoch, t⟩ :
            MetadataInfo))) = (fun x : AssetTable => x == t) := rfl
    rw [hpt]
    have hc : (List.countP (fun x : AssetTable => x == t)
          ((req.filter
            (fun t => decide (t ∉ env.storedTables schema pkey))).dedup)) =
        ((req.filter
          (fun t => decide (t ∉ env.storedTables schema pkey))).dedup).count t := by
      rw [List.count]
    rw [hc, List.count_dedup]
    by_cases hmem : t ∈ req.filter
        (fun t => decide (t ∉ env.storedTables schema pkey))
    · rw [if_pos hmem, if_pos]
      have := List.mem_filter.mp hmem
      exact ⟨this.1, by simpa using this.2⟩
    · rw [if_neg hmem, if_neg]
      intro hand
      exact hmem (List.mem_filter.mpr ⟨hand.1, by simpa using hand.2⟩)

/-- Concrete instantiation of `missing_metadata_sentinels`: minute data
configured with raw tables {1m, 5m} and only {1m} stored yields exactly one
synthetic entry, for the 5m table, with sentinel dates. -/
theorem missing_metadata_sentinels_witness :
    ∃ l, missing_metadata_tables
        ⟨[⟨7, "equity", false, true, false⟩],
          fun sch _ =>
            if sch = Schema.minute_data then
              some [⟨"equity_1m", 60, true⟩, ⟨"equity_5m", 300, true⟩]
            else none,
          fun _ _ => [⟨"equity_1m", 60, true⟩]⟩ 7 "equity"
        Schema.minute_data = .ok l ∧
      (∀ m ∈ l, m.start_date = sentinelEpoch ∧ m.end_date = sentinelEpoch ∧
        m.schema = Schema.minute_data ∧ m.table_name = m.table.name) ∧
      (∀ t : AssetTable, l.countP (fun m => m.table == t) =
        if t ∈ [(⟨"equity_1m", 60, true⟩ : AssetTable), ⟨"equity_5m", 300, true⟩] ∧
            t ∉ [(⟨"equity_1m", 60, true⟩ : AssetTable)] then 1 else 0) :=
  missing_metadata_sentinels
    ⟨[⟨7, "equity", false, true, false⟩],
      fun sch _ =>
        if sch = Schema.minute_data then
          some [⟨"equity_1m", 60, true⟩, ⟨"equity_5m", 300, true⟩]
        else none,
      fun _ _ => [⟨"equity_1m", 60, true⟩]⟩ 7 "equity" Schema.minute_data
    [⟨"equity_1m", 60, true⟩, ⟨"equity_5m", 300, true⟩] (by decide)

/-- `gatherMissing` fails exactly when some listed schema category has no
configured tables for the asset class. -/
theorem gatherMissing_error_iff (env : MetadataEnv) (pkey : Nat)
    (asset_class : String) (ss : List Schema) :
    (∃ e, gatherMissing env pkey asset_class ss = .error e) ↔
      ∃ s ∈ ss, env.rawTableConfig s asset_class = none := by
  induction ss with
  | nil => simp [gatherMissing]
  | cons s rest ih =>
    unfold gatherMissing
    cases hcfg : env.rawTableConfig s asset_class with
    | none =>
      have hmiss : missing_metadata_tables env pkey asset_class s =
          .error () := by
        unfold missing_metadata_tables
        rw [hcfg]
      rw [hmiss]
      constructor
      · intro _
        exact ⟨s, List.mem_cons_self s rest, hcfg⟩
      · intro _
        exact ⟨(), rfl⟩
    | some req =>
      have hmiss : missing_metadata_tables env pkey asset_class s =
          .ok (((req.filter
              (fun t => decide (t ∉ env.storedTables s pkey))).dedup).map
            (fun t => ⟨t.name, s, sentinelEpoch, sentinelEpoch, t⟩)) := by
        unfold missing_metadata_tables
        rw [hcfg]
      rw [hmiss]
      cases hrest : gatherMissing env pkey asset_class rest with
      | error e =>
        constructor
        · intro _
          obtain ⟨s', hs', hnone⟩ := ih.mp ⟨e, hrest⟩
          exact ⟨s', List.mem_cons_of_mem s hs', hnone⟩
        · intro _
          exact ⟨e, rfl⟩
      | ok ms =>
        constructor
        · rintro ⟨e, he⟩
          exact absurd he (by simp)
        · rintro ⟨s', hs', hnone⟩
          exfalso
          rcases List.mem_cons.mp hs' with heq | hmem
          · rw [heq, hcfg] at hnone
            exact Option.some_ne_none req hnone
          · obtain ⟨e, he⟩ := ih.mpr ⟨s', hmem, hnone⟩
            rw [hrest] at he
            exact absurd he (by simp)

/-- C7: `get_symbol_series_updates` raises the "symbol unknown" error iff the
given pkey has no record in the symbols table; when the symbol exists and some
enabled category has no configured tables it raises the "prerequisite not run"
error carrying the `configure_timeseries_schema` remediation hint; and when
the symbol exists and every enabled category is configured it returns
normally, possibly with an empty list. -/
theorem series_updates_error_conditions (env : MetadataEnv) (pkey : Nat) :
    (get_symbol_series_updates env pkey = .error (.symbolUnknown pkey) ↔
      env.symbols.find? (fun r => r.pkey == pkey) = none) ∧
    (∀ r, env.symbols.find? (fun r => r.pkey == pkey) = some r →
      ((∃ s ∈ enabledSchemas r, env.rawTableConfig s r.asset_class = none) →
        get_symbol_series_updates env pkey =
          .error (.prerequisiteNotRun prerequisiteHint)) ∧
      ((∀ s ∈ enabledSchemas r, env.rawTableConfig s r.asset_class ≠ none) →
        ∃ l, get_symbol_series_updates env pkey = .ok l)) := by
  constructor
  · cases hfind : env.symbols.find? (fun r => r.pkey == pkey) with
    | none =>
      constructor
      · intro _
        rfl
      · intro _
        unfold get_symbol_series_updates
        rw [hfind]
    | some r =>
      constructor
      · intro hresult
        exfalso
        unfold get_symbol_series_updates at hresult
        rw [hfind] at hresult
        dsimp only at hresult
        cases hg : gatherMissing env pkey r.asset_class (enabledSchemas r) with
        | error e =>
          rw [hg] at hresult
          simp [prerequisiteHint] at hresult
        | ok l =>
          rw [hg] at hresult
          simp at hresult
      · intro hnone
        exact absurd hnone (by simp)
  · intro r hfind
    constructor
    · intro hex
      obtain ⟨e, he⟩ :=
        (gatherMissing_error_iff env pkey r.asset_class
          (enabledSchemas r)).mpr hex
      unfold get_symbol_series_updates
      rw [hfind]
      dsimp only
      rw [he]
    · intro hall
      cases hg : gatherMissing env pkey r.asset_class (enabledSchemas r) with
      | error e =>
        obtain ⟨s, hs, hnone⟩ :=
          (gatherMissing_error_iff env pkey r.asset_class
            (enabledSchemas r)).mp ⟨e, hg⟩
        exact absurd hnone (hall s hs)
      | ok l =>
        refine ⟨l, ?_⟩
        unfold get_symbol_series_updates
        rw [hfind]
        dsimp only
        rw [hg]

/-- Concrete instantiations of `series_updates_error_conditions`: an unknown
pkey raises "symbol unknown"; a known symbol with its enabled tick category
unconfigured raises "prerequisite not run"; a known symbol with every enabled
category configured returns normally even with zero missing tables. -/
theorem series_updates_error_conditions_witness :
    get_symbol_series_updates
        ⟨[], fun _ _ => none, fun _ _ => []⟩ 3 =
      .error (.symbolUnknown 3) ∧
    get_symbol_series_updates
        ⟨[⟨1, "equity", true, false, false⟩], fun _ _ => none,
          fun _ _ => []⟩ 1 =
      .error (.prerequisiteNotRun prerequisiteHint) ∧
    ∃ l, get_symbol_series_updates
        ⟨[⟨1, "equity", true, false, false⟩], fun _ _ => some [],
          fun _ _ => []⟩ 1 = .ok l := by
  refine ⟨?_, ?_, ?_⟩
  · exact (series_updates_error_conditions
      ⟨[], fun _ _ => none, fun _ _ => []⟩ 3).1.mpr rfl
  · exact ((series_updates_error_conditions
      ⟨[⟨1, "equity", true, false, false⟩], fun _ _ => none,
        fun _ _ => []⟩ 1).2 ⟨1, "equity", true, false, false⟩ rfl).1
      ⟨Schema.tick_data, by decide, rfl⟩
  · exact ((series_updates_error_conditions
      ⟨[⟨1, "equity", true, false, false⟩], fun _ _ => some [],
        fun _ _ => []⟩ 1).2 ⟨1, "equity", true, false, false⟩ rfl).2
      (fun s _ => by simp)

/-! ## Stored configuration freshness (C9)

`_configure_timeseries_schema` reads `stored_config = self.table_config[schema]`
(line 252).  The `table_config` property lives in the absent `api` module; it
is modelled from the spec: "StoredConfig is read fresh from the database each
reconciliation run and never cached across runs (any cached copy on the engine
instance must be invalidated/reloaded before use)".
-/

/-- The engine instance state: it may carry a cached stored configuration
from a previous run. -/
structure EngineState where
  cachedConfig : Option TimeseriesConfig

/-- The database's actual structure for one schema, as a stored config. -/
structure DbState where
  storedConfig : TimeseriesConfig

/-- Modelled from the spec: reading `self.table_config[schema]` at the start
of a reconciliation run reloads the stored configuration from the database,
refreshing any instance cache rather than consulting it. -/
def loadStoredConfig (db : DbState) (_e : EngineState) :
    TimeseriesConfig × EngineState :=
  (db.storedConfig, { cachedConfig := some db.storedConfig })

/-- One reconciliation run over one schema: read the stored config fresh,
then run the three phases of `_configure_timeseries_schema` against it. -/
def runReconciliation (schema : String) (db : DbState) (e : EngineState)
    (config : TimeseriesConfig) (ans : String → String)
    (rawAns : String → AssetTable → String) (ans1 ans2 : String → String) :
    List Stmt × EngineState :=
  ((reconcileStmts schema config (loadStoredConfig db e).1 ans rawAns
      ans1 ans2),
    (loadStoredConfig db e).2)

/-- C9: the stored configuration driving a reconciliation run is the one read
from the database at the start of that run, and the run's statements are
independent of whatever configuration the engine instance had cached from a
previous run. -/
theorem stored_config_read_fresh (schema : String) (db : DbState)
    (e e' : EngineState) (config : TimeseriesConfig) (ans : String → String)
    (rawAns : String → AssetTable → String) (ans1 ans2 : String → String) :
    (loadStoredConfig db e).1 = db.storedConfig ∧
    (runReconciliation schema db e config ans rawAns ans1 ans2).1 =
      reconcileStmts schema config db.storedConfig ans rawAns ans1 ans2 ∧
    (runReconciliation schema db e config ans rawAns ans1 ans2).1 =
      (runReconciliation schema db e' config ans rawAns ans1 ans2).1 :=
  ⟨rfl, rfl, rfl⟩

end PyCharts
